import Mathlib

/-!
# Effect chain presets and the hotcue default colour preference

A shallow embedding of `src/effects/presets/effectchainpreset.cpp` (the three
constructors of `EffectChainPreset` and `toXml`) and of the hotcue default
colour part of `src/preferences/dialog/dlgprefcolors.cpp` (`slotApply`,
`slotHotcuePaletteChanged`), followed by the properties proved about them.

The Qt DOM is embedded as an immutable tree; the document a `QDomDocument*`
builds into is left implicit, since the code only uses it to create nodes.
What the two files call outside themselves (the unit-level `EffectPreset`, the
mix-mode codec, Qt's number conversions, the table of predefined palettes) is a
parameter of the embedding; `Sample` instantiates the parameters for the
examples.
-/

namespace Mixxx

/-! ## The Qt DOM, as far as the code reads and builds it -/

/-- A non-null DOM node. Attributes are left out: the code never reads or writes one. -/
inductive QDomNode where
  | element (tagName : String) (childNodes : List QDomNode)
  | text (data : String)
  | cdataSection (data : String)
  | comment (data : String)
  | processingInstruction (target : String) (data : String)
  | entityReference (name : String)

/-- The payload of a non-null `QDomElement`: its tag name and child nodes in document order. -/
structure Element where
  tagName : String
  childNodes : List QDomNode

/-- A `QDomElement` handle: `none` is the null element. -/
abbrev QDomElement := Option Element

namespace QDomNode

/-- Qt `QDomNode::nodeName()`. -/
def nodeName : QDomNode → String
  | element tagName _ => tagName
  | text _ => "#text"
  | cdataSection _ => "#cdata-section"
  | comment _ => "#comment"
  | processingInstruction target _ => target
  | entityReference name => name

/-- Qt `QDomNode::isElement()`. -/
def isElement : QDomNode → Bool
  | element _ _ => true
  | _ => false

/-- Qt `QDomNode::toElement()`: the null element unless the node is an element. -/
def toElement : QDomNode → QDomElement
  | element tagName childNodes => some ⟨tagName, childNodes⟩
  | _ => none

mutual
/-- Qt `QDomElement::text()` seen from a child: text and CDATA give their data,
elements their own text, every other node nothing. -/
def innerText : QDomNode → String
  | element _ childNodes => innerTextList childNodes
  | text data => data
  | cdataSection data => data
  | comment _ => ""
  | processingInstruction _ _ => ""
  | entityReference _ => ""
/-- The concatenation of `innerText` over a child list. -/
def innerTextList : List QDomNode → String
  | [] => ""
  | node :: rest => innerText node ++ innerTextList rest
end

end QDomNode

namespace Element

/-- The element as a node of its parent's child list. -/
def toNode (e : Element) : QDomNode :=
  QDomNode.element e.tagName e.childNodes

/-- Qt `QDomNode::appendChild` of a freshly created node: it becomes the last child. -/
def appendChild (e : Element) (newChild : QDomNode) : Element :=
  { e with childNodes := e.childNodes ++ [newChild] }

end Element

namespace QDomElement

/-- Qt `QDomElement::tagName()`; the null element has the empty name. -/
def tagName : QDomElement → String
  | none => ""
  | some e => e.tagName

/-- Qt `QDomNode::childNodes()`; empty for the null element. -/
def childNodes : QDomElement → List QDomNode
  | none => []
  | some e => e.childNodes

/-- Qt `QDomNode::hasChildNodes()`. -/
def hasChildNodes (e : QDomElement) : Bool :=
  !(childNodes e).isEmpty

/-- Qt `QDomElement::text()`; empty for the null element. -/
def text : QDomElement → String
  | none => ""
  | some e => QDomNode.innerTextList e.childNodes

end QDomElement

/-- Qt `QDomDocument::createElement`: a new element without children. -/
def createElement (tagName : String) : Element :=
  ⟨tagName, []⟩

/-- Qt `QDomDocument::createTextNode`. -/
def createTextNode (data : String) : QDomNode :=
  QDomNode.text data

/-! ## Collaborators that are not part of the two source files -/

namespace EffectXml

/-- Modelled from the spec: `effects/effectxmlelements.h` is not among the sources; the tag
of a chain element, as in the document schema of section 6. -/
def Chain : String := "Chain"

/-- Modelled from the spec: the name of the id field (section 6). -/
def ChainId : String := "Id"

/-- Modelled from the spec: the name of the name field (section 6). -/
def ChainName : String := "Name"

/-- Modelled from the spec: the name of the description field (section 6). -/
def ChainDescription : String := "Description"

/-- Modelled from the spec: the name of the mix-mode field (section 6). -/
def ChainMixMode : String := "MixMode"

/-- Modelled from the spec: the name of the super parameter field (section 6). -/
def ChainSuperParameter : String := "SuperParameter"

/-- Modelled from the spec: the name of the container of the effect units (section 6). -/
def EffectsRoot : String := "Effects"

end EffectXml

/-- Modelled from the spec: `EffectChainSlot::mixModeFromString` and `mixModeToString`
are not among the sources. Section 6 asks for a total function from strings to the
enumeration with a defined default for unrecognized input, and a total function back;
section 3 has an absent field yield the default enum token, so the empty string is not
a known token. `M` is the enumeration `EffectChainMixMode`. -/
structure MixModeCodec (M : Type) where
  known : List (String × M)
  defaultMode : M
  mixModeToString : M → String
  empty_unknown : known.lookup "" = none

namespace MixModeCodec

variable {M : Type}

/-- The string to enum lookup: a known token gives its mode, any other string the default. -/
def mixModeFromString (c : MixModeCodec M) (mixModeStr : String) : M :=
  match c.known.lookup mixModeStr with
  | some mode => mode
  | none => c.defaultMode

/-- The members of the enumeration the codec can return. -/
def members (c : MixModeCodec M) : List M :=
  c.defaultMode :: c.known.map Prod.snd

end MixModeCodec

/-- Qt's conversions between a `double` and its text, over a type `D` of double values:
`number` is `QString::number(double)`, `toDoubleOk` is `QString::toDouble` with its `ok`
flag (`none` when the conversion fails), `zero` is `0.0`. -/
structure QtDouble (D : Type) where
  zero : D
  number : D → String
  toDoubleOk : String → Option D

namespace QtDouble

variable {D : Type}

/-- Qt `QString::toDouble()`: `0.0` when the conversion fails. -/
def toDouble (qt : QtDouble D) (s : String) : D :=
  match qt.toDoubleOk s with
  | some d => d
  | none => qt.zero

end QtDouble

/-- Modelled from the spec: the `EffectPreset` sub-model is not among the sources. Per the
collaborator contract of section 6 it offers a constructor from a document element, a
constructor from a live effect slot, and a serializer that returns a newly created
element. `U` is `EffectPreset`, `S` the live effect slot. -/
structure EffectPresetModel (U S : Type) where
  fromXml : QDomElement → U
  fromSlot : S → U
  toXml : U → Element

/-- Everything `effectchainpreset.cpp` calls outside itself and `XmlParse`. -/
structure Env (U S M D : Type) where
  effectPreset : EffectPresetModel U S
  mixMode : MixModeCodec M
  qt : QtDouble D

/-! ## `XmlParse` (util/xml) -/

namespace XmlParse

/-- Modelled from the spec: `XmlParse::selectNode` is not among the sources; it walks the
children from `firstChild()` along `nextSibling()` and returns the first one whose node name
is `sNode`, or the null node (`none`). -/
def selectNodeIn : List QDomNode → String → Option QDomNode
  | [], _ => none
  | node :: rest, sNode =>
    if node.nodeName = sNode then some node else selectNodeIn rest sNode

/-- Modelled from the spec: `XmlParse::selectNode` on an element handle. -/
def selectNode (nodeHeader : QDomElement) (sNode : String) : Option QDomNode :=
  selectNodeIn (QDomElement.childNodes nodeHeader) sNode

/-- Modelled from the spec: `XmlParse::selectElement` is not among the sources; the first
child that is an element named `sNode`, or the null element. -/
def selectElementIn : List QDomNode → String → QDomElement
  | [], _ => none
  | node :: rest, sNode =>
    if node.isElement && node.nodeName = sNode then node.toElement
    else selectElementIn rest sNode

/-- Modelled from the spec: `XmlParse::selectElement` on an element handle. -/
def selectElement (nodeHeader : QDomElement) (sNode : String) : QDomElement :=
  selectElementIn (QDomElement.childNodes nodeHeader) sNode

/-- Modelled from the spec: `XmlParse::selectNodeQString` is not among the sources; the text
of the selected child, the empty string when there is none. -/
def selectNodeQString (nodeHeader : QDomElement) (sNode : String) : String :=
  match selectNode nodeHeader sNode with
  | some node => QDomElement.text node.toElement
  | none => ""

/-- Modelled from the spec: `XmlParse::selectNodeDouble` is not among the sources; the text
of the selected child read as a floating-point number, `0.0` when the child is missing or
its text does not convert. -/
def selectNodeDouble {D : Type} (qt : QtDouble D) (nodeHeader : QDomElement)
    (sNode : String) : D :=
  match selectNode nodeHeader sNode with
  | some node => qt.toDouble (QDomElement.text node.toElement)
  | none => qt.zero

/-- Modelled from the spec: `XmlParse::addElement` is not among the sources; it creates an
element named `sElementName` holding one text node `sText` and appends it to `header`. -/
def addElement (header : Element) (sElementName : String) (sText : String) : Element :=
  let element := createElement sElementName
  let element := element.appendChild (createTextNode sText)
  header.appendChild element.toNode

end XmlParse

/-! ## `EffectChainPreset` -/

/-- The live chain, as seen through the read accessors the constructor calls. -/
structure EffectChainSlot (S M D : Type) where
  id : String
  name : String
  description : String
  mixMode : M
  getSuperParameter : D
  getEffectSlots : List S

/-- The members of `EffectChainPreset`. -/
structure EffectChainPreset (U M D : Type) where
  m_id : String
  m_name : String
  m_description : String
  m_mixMode : M
  m_dSuper : D
  m_effectPresets : List U
  deriving DecidableEq

namespace EffectChainPreset

variable {U S M D : Type}

/-- Modelled from the spec: the member declarations of `effectchainpreset.h` are not among
the sources; section 4.1 gives the values the members have before a constructor body runs
as empty strings, the default enum value, a zero scalar and an empty unit list. -/
def initialMembers (env : Env U S M D) : EffectChainPreset U M D :=
  { m_id := "", m_name := "", m_description := "",
    m_mixMode := env.mixMode.defaultMode, m_dSuper := env.qt.zero,
    m_effectPresets := [] }

/-- The default constructor `EffectChainPreset::EffectChainPreset()`: its body is empty, so
every member keeps its initial value. -/
def empty (env : Env U S M D) : EffectChainPreset U M D :=
  initialMembers env

/-- The state of the loop `for (int i = 0; i < effectList.count(); ++i)`: the counter and
the list built so far. -/
structure LoopState (U : Type) where
  i : Nat
  m_effectPresets : List U

/-- One iteration of the loop body at counter `st.i`, followed by `++i`. -/
def loopBody (env : Env U S M D) (effectNode : QDomNode) (st : LoopState U) : LoopState U :=
  if effectNode.isElement then
    let effectElement := effectNode.toElement
    let pPreset := env.effectPreset.fromXml effectElement
    { i := st.i + 1, m_effectPresets := st.m_effectPresets ++ [pPreset] }
  else
    { st with i := st.i + 1 }

/-- The loop over `effectList`: `remaining` bounds the iterations still to run; the loop
stops as soon as `i < effectList.count()` fails. -/
def effectLoop (env : Env U S M D) (effectList : List QDomNode) :
    Nat → LoopState U → LoopState U
  | 0, st => st
  | remaining + 1, st =>
    match effectList.get? st.i with
    | none => st
    | some effectNode => effectLoop env effectList remaining (loopBody env effectNode st)

/-- The constructor `EffectChainPreset::EffectChainPreset(const QDomElement& chainElement)`.
Each `return` before the members are assigned leaves them at their initial values. -/
def fromXml (env : Env U S M D) (chainElement : QDomElement) : EffectChainPreset U M D :=
  if QDomElement.tagName chainElement ≠ EffectXml.Chain then
    initialMembers env
  else if !QDomElement.hasChildNodes chainElement then
    initialMembers env
  else
    let m_id := XmlParse.selectNodeQString chainElement EffectXml.ChainId
    let m_name := XmlParse.selectNodeQString chainElement EffectXml.ChainName
    let m_description := XmlParse.selectNodeQString chainElement EffectXml.ChainDescription
    let mixModeStr := XmlParse.selectNodeQString chainElement EffectXml.ChainMixMode
    let m_mixMode := env.mixMode.mixModeFromString mixModeStr
    let m_dSuper := XmlParse.selectNodeDouble env.qt chainElement EffectXml.ChainSuperParameter
    let effectsElement := XmlParse.selectElement chainElement EffectXml.EffectsRoot
    let effectList := QDomElement.childNodes effectsElement
    let st := effectLoop env effectList effectList.length
      ⟨0, (initialMembers env).m_effectPresets⟩
    { m_id := m_id, m_name := m_name, m_description := m_description,
      m_mixMode := m_mixMode, m_dSuper := m_dSuper,
      m_effectPresets := st.m_effectPresets }

/-- The constructor `EffectChainPreset::EffectChainPreset(const EffectChainSlot* chain)`. -/
def fromChain (env : Env U S M D) (chain : EffectChainSlot S M D) : EffectChainPreset U M D :=
  { m_id := chain.id, m_name := chain.name, m_description := chain.description,
    m_mixMode := chain.mixMode, m_dSuper := chain.getSuperParameter,
    m_effectPresets :=
      chain.getEffectSlots.foldl
        (fun m_effectPresets pEffectSlot =>
          m_effectPresets ++ [env.effectPreset.fromSlot pEffectSlot])
        (initialMembers env).m_effectPresets }

/-- The serializer `EffectChainPreset::toXml(QDomDocument* doc)`. -/
def toXml (env : Env U S M D) (p : EffectChainPreset U M D) : Element :=
  let chainElement := createElement EffectXml.Chain
  let chainElement := XmlParse.addElement chainElement EffectXml.ChainId p.m_id
  let chainElement := XmlParse.addElement chainElement EffectXml.ChainName p.m_name
  let chainElement := XmlParse.addElement chainElement EffectXml.ChainDescription p.m_description
  let chainElement := XmlParse.addElement chainElement EffectXml.ChainMixMode
    (env.mixMode.mixModeToString p.m_mixMode)
  let chainElement := XmlParse.addElement chainElement EffectXml.ChainSuperParameter
    (env.qt.number p.m_dSuper)
  let effectsElement := p.m_effectPresets.foldl
    (fun effectsElement pEffectPreset =>
      effectsElement.appendChild (env.effectPreset.toXml pEffectPreset).toNode)
    (createElement EffectXml.EffectsRoot)
  chainElement.appendChild effectsElement.toNode

/-- The list the spec describes for the effects container: its direct children in document
order, the non-element nodes dropped, the unit-level constructor applied to each element. -/
def presetsOfChildren (env : Env U S M D) (children : List QDomNode) : List U :=
  (children.filter QDomNode.isElement).map (fun node => env.effectPreset.fromXml node.toElement)

/-- The child list without the nodes named `name`: the document in which that field is
missing. -/
def removeNamed : List QDomNode → String → List QDomNode
  | [], _ => []
  | node :: rest, name =>
    if node.nodeName = name then removeNamed rest name else node :: removeNamed rest name

end EffectChainPreset

/-! ## The hotcue default colour preference (`DlgPrefColors`) -/

/-- A `ColorPalette`, as far as the dialog reads it: its name and its colours (`RgbColor`
codes). -/
structure ColorPalette where
  getName : String
  colors : List Nat

/-- The number of colours, `ColorPalette::size()`. -/
def ColorPalette.size (palette : ColorPalette) : Nat :=
  palette.colors.length

/-- The table `mixxx::PredefinedColorPalettes::kPalettes`, which is not among the sources;
the code reads `kPalettes[0]`, so the table has a first entry. -/
structure PredefinedColorPalettes where
  first : ColorPalette
  others : List ColorPalette

/-- The table as a list. -/
def PredefinedColorPalettes.kPalettes (t : PredefinedColorPalettes) : List ColorPalette :=
  t.first :: t.others

/-- A `QComboBox`: the items (text and user data) and the current index, `-1` when no item
is current. Icons are left out. -/
structure QComboBox where
  items : List (String × Int)
  currentIndex : Int

namespace QComboBox

/-- Qt `QComboBox::count()`. -/
def count (box : QComboBox) : Int :=
  box.items.length

/-- Qt `QComboBox::clear()`. -/
def clear (_box : QComboBox) : QComboBox :=
  ⟨[], -1⟩

/-- Qt `QComboBox::addItem(text, userData)`: the item goes last; the first item of an empty
box becomes the current one. -/
def addItem (box : QComboBox) (text : String) (userData : Int) : QComboBox :=
  { items := box.items ++ [(text, userData)],
    currentIndex := if box.items.isEmpty then 0 else box.currentIndex }

/-- Qt `QComboBox::setCurrentIndex(index)`: an index outside the items leaves no current
item. -/
def setCurrentIndex (box : QComboBox) (index : Int) : QComboBox :=
  { box with currentIndex := if 0 ≤ index ∧ index < box.count then index else -1 }

end QComboBox

/-- The two entries of the user settings (`m_pConfig`) the hotcue default colour is kept in,
`[Controls],auto_hotcue_colors` and `[Controls],HotcueDefaultColorIndex`. `ConfigObject` is
not among the sources; it is modelled from its use in the dialog as a typed store: `none` is
an entry that is absent or does not read as a value of its type, for which `getValue`
returns the default it is given, and an entry written by `setValue` reads back as the value
written. -/
structure UserSettings where
  auto_hotcue_colors : Option Bool
  HotcueDefaultColorIndex : Option Int

/-- The read `ConfigObject::getValue(key, default_value)` on one entry. -/
def getValue {α : Type} (entry : Option α) (default_value : α) : α :=
  match entry with
  | some value => value
  | none => default_value

/-- The constant `kHotcueDefaultColorIndex` of the anonymous namespace. -/
def kHotcueDefaultColorIndex : Int := -1

/-- The part of the dialog the hotcue default colour lives in: the settings and the combo
box `comboBoxHotcueDefaultColor`. Indices are `int` in the code and `Int` here: the code only
computes `index - 1` for `index > 0`, `palette.size() - 1`, and `index + 1` for an index
below `palette.size()`, none of which leaves the range of `int`. -/
structure DlgPrefColors where
  m_pConfig : UserSettings
  comboBoxHotcueDefaultColor : QComboBox

namespace DlgPrefColors

/-- The slot `DlgPrefColors::slotApply`, lines 120 to 128. The lines before them store the two
selected palettes through `ColorPaletteSettings` (not among the sources) and touch neither
the combo box nor the two `[Controls]` entries. -/
def slotApply (dlg : DlgPrefColors) : DlgPrefColors :=
  let index := dlg.comboBoxHotcueDefaultColor.currentIndex
  if index > 0 then
    { dlg with m_pConfig :=
        { auto_hotcue_colors := some false, HotcueDefaultColorIndex := some (index - 1) } }
  else
    { dlg with m_pConfig :=
        { auto_hotcue_colors := some true, HotcueDefaultColorIndex := some (-1) } }

/-- The `foreach` over `kPalettes` in `slotHotcuePaletteChanged`: the first palette named
`paletteName`, else the initial value `palette`. -/
def findPalette : List ColorPalette → String → ColorPalette → ColorPalette
  | [], _, palette => palette
  | pal :: rest, paletteName, palette =>
    if paletteName = pal.getName then pal else findPalette rest paletteName palette

/-- The palette `slotHotcuePaletteChanged` fills the combo box from: `kPalettes[0]` unless a
predefined palette is named `paletteName`. -/
def hotcuePalette (t : PredefinedColorPalettes) (paletteName : String) : ColorPalette :=
  findPalette t.kPalettes paletteName t.first

/-- The loop `for (int i = 0; i < palette.size(); ++i)` that adds one item per colour. -/
def addPaletteItems (box : QComboBox) (size : Nat) : QComboBox :=
  (List.range size).foldl
    (fun box i => box.addItem ("Palette " ++ toString (i + 1)) (Int.ofNat i)) box

/-- The slot `DlgPrefColors::slotHotcuePaletteChanged`; the previews and icons it paints are left
out. -/
def slotHotcuePaletteChanged (t : PredefinedColorPalettes) (paletteName : String)
    (dlg : DlgPrefColors) : DlgPrefColors :=
  let palette := hotcuePalette t paletteName
  let box := dlg.comboBoxHotcueDefaultColor.clear
  let box := box.addItem "By hotcue number" (-1)
  let box := addPaletteItems box palette.size
  let autoHotcueColors := getValue dlg.m_pConfig.auto_hotcue_colors false
  if autoHotcueColors then
    { dlg with comboBoxHotcueDefaultColor := box.setCurrentIndex 0 }
  else
    let hotcueDefaultColorIndex :=
      getValue dlg.m_pConfig.HotcueDefaultColorIndex kHotcueDefaultColorIndex
    let hotcueDefaultColorIndex :=
      if hotcueDefaultColorIndex < 0 ∨ hotcueDefaultColorIndex ≥ (palette.size : Int) then
        (palette.size : Int) - 1
      else hotcueDefaultColorIndex
    { dlg with comboBoxHotcueDefaultColor := box.setCurrentIndex (hotcueDefaultColorIndex + 1) }

end DlgPrefColors

/-! ## `QString::number(double)` on exact values

`toXml` calls `QString::number(m_dSuper)` with Qt's defaults, format `'g'` and precision 6:
at most six significant digits, trailing zeros dropped, exponent form when the decimal
exponent is below -4 or at least 6. Every finite `double` is a rational number, so the
function is written out over `ℚ`. -/

namespace QtNumber

/-- The largest `k` from `k` upwards with `d * 10 ^ k ≤ n`, found in at most `fuel` steps. -/
def expUp (n d : Nat) : Nat → Nat → Nat
  | 0, k => k
  | fuel + 1, k => if d * 10 ^ (k + 1) ≤ n then expUp n d fuel (k + 1) else k

/-- The smallest `k` from `k` upwards with `d ≤ n * 10 ^ k`, found in at most `fuel` steps. -/
def expDown (n d : Nat) : Nat → Nat → Nat
  | 0, k => k
  | fuel + 1, k => if d ≤ n * 10 ^ k then k else expDown n d fuel (k + 1)

/-- The decimal exponent of `n / d` for positive `n` and `d`: the `x` with
`10 ^ x ≤ n / d < 10 ^ (x + 1)`. -/
def decimalExponent (n d : Nat) : Int :=
  if d ≤ n then Int.ofNat (expUp n d n 0) else Int.negSucc (expDown n d d 1 - 1)

/-- The value `n / d` scaled to six significant digits and rounded to the nearest integer
(a halfway case upwards). -/
def sixDigits (n d : Nat) (x : Int) : Nat :=
  let num := if x ≤ 5 then n * 10 ^ (5 - x).toNat else n
  let den := if x ≤ 5 then d else d * 10 ^ (x - 5).toNat
  (2 * num + den) / (2 * den)

/-- The digits without their trailing zeros. -/
def dropTrailingZeros (digits : List Char) : List Char :=
  (digits.reverse.dropWhile (fun c => c == '0')).reverse

/-- The exponent as Qt prints it: a sign and at least two digits. -/
def exponentText (x : Int) : List Char :=
  let digits := Nat.toDigits 10 x.natAbs
  (if x < 0 then ['-'] else ['+']) ++ (if digits.length < 2 then '0' :: digits else digits)

/-- The text of the positive value `n / d`. -/
def positiveText (n d : Nat) : List Char :=
  let x0 := decimalExponent n d
  let m0 := sixDigits n d x0
  let x := if 1000000 ≤ m0 then x0 + 1 else x0
  let m := if 1000000 ≤ m0 then m0 / 10 else m0
  let digits := dropTrailingZeros (Nat.toDigits 10 m)
  if x < -4 ∨ 6 ≤ x then
    digits.take 1 ++ (if digits.length ≤ 1 then [] else '.' :: digits.drop 1)
      ++ 'e' :: exponentText x
  else if 0 ≤ x then
    let whole := x.toNat + 1
    (digits.take whole ++ List.replicate (whole - digits.length) '0')
      ++ (if digits.length ≤ whole then [] else '.' :: digits.drop whole)
  else
    '0' :: '.' :: (List.replicate (x.natAbs - 1) '0' ++ digits)

/-- Qt `QString::number(double n, char format = 'g', int precision = 6)` on a finite value. -/
def number (q : ℚ) : String :=
  if q = 0 then "0"
  else if q < 0 then String.mk ('-' :: positiveText q.num.natAbs q.den)
  else String.mk (positiveText q.num.natAbs q.den)

end QtNumber

/-! ## A sample environment

The collaborators are parameters of the embedding; the examples instantiate them here. -/

namespace Sample

/-- A two-valued mix-mode enumeration, named as in the data model of the spec. -/
inductive MixMode where
  | DrySet
  | DryWet
  deriving DecidableEq

/-- A mix-mode codec over the sample enumeration, with `DrySet` as the default. -/
def mixModeCodec : MixModeCodec MixMode :=
  { known := [("DrySet", MixMode.DrySet), ("DryWet", MixMode.DryWet)],
    defaultMode := MixMode.DrySet,
    mixModeToString := fun mode =>
      match mode with
      | MixMode.DrySet => "DrySet"
      | MixMode.DryWet => "DryWet",
    empty_unknown := by decide }

/-- A unit-level model in which an effect preset is just its id, kept as the text of an
`Effect` element; a live effect slot is its id as well. -/
def effectPreset : EffectPresetModel String String :=
  { fromXml := fun effectElement => QDomElement.text effectElement,
    fromSlot := fun pEffectSlot => pEffectSlot,
    toXml := fun preset => ⟨"Effect", [QDomNode.text preset]⟩ }

/-- The double `0.5`. -/
def half : ℚ :=
  Rat.mk' 1 2 (by decide) (by decide)

/-- The double `0.5 + 2^-30`, that is `536870913 / 2^30`. -/
def halfPlus : ℚ :=
  Rat.mk' 536870913 1073741824 (by decide) (by decide)

/-- Qt's `toDouble` on the two texts the examples read; any other text counts as failed. -/
def toDoubleOk (s : String) : Option ℚ :=
  if s = "0" then some 0
  else if s = "0.5" then some half
  else none

/-- The numeric conversions over `ℚ`, with `toDoubleOk` for the way back. -/
def qtDouble (toDoubleOk : String → Option ℚ) : QtDouble ℚ :=
  { zero := 0, number := QtNumber.number, toDoubleOk := toDoubleOk }

/-- The sample environment, for a given `toDouble`. -/
def envWith (toDoubleOk : String → Option ℚ) : Env String String MixMode ℚ :=
  { effectPreset := effectPreset, mixMode := mixModeCodec, qt := qtDouble toDoubleOk }

/-- The sample environment. -/
def env : Env String String MixMode ℚ :=
  envWith toDoubleOk

/-- A preset with a non-default value in every field and super parameter `0.5`. -/
def presetHalf : EffectChainPreset String MixMode ℚ :=
  { m_id := "chain-1", m_name := "Echo chain", m_description := "two units",
    m_mixMode := MixMode.DryWet, m_dSuper := half, m_effectPresets := ["echo", "reverb"] }

/-- The same preset with super parameter `0.5 + 2^-30`. -/
def presetHalfPlus : EffectChainPreset String MixMode ℚ :=
  { presetHalf with m_dSuper := halfPlus }

/-- An `Effect` element holding the id `unitId`. -/
def effectNode (unitId : String) : QDomNode :=
  QDomNode.element "Effect" [QDomNode.text unitId]

/-- A chain document whose effects container holds three units `A`, `B`, `C`. -/
def chainABC : QDomElement :=
  some ⟨"Chain", [QDomNode.element "Name" [QDomNode.text "abc"],
    QDomNode.element "Effects" [effectNode "A", effectNode "B", effectNode "C"]]⟩

/-- The same document with a comment and a whitespace text node between the units. -/
def chainABCSpaced : QDomElement :=
  some ⟨"Chain", [QDomNode.element "Name" [QDomNode.text "abc"],
    QDomNode.element "Effects" [effectNode "A", QDomNode.comment "first", QDomNode.text " ",
      effectNode "B", effectNode "C"]]⟩

/-- A table of predefined palettes: one of three colours, one of two. -/
def palettes : PredefinedColorPalettes :=
  { first := ⟨"Three colours", [0xff0000, 0x00ff00, 0x0000ff]⟩,
    others := [⟨"Two colours", [0xffffff, 0x000000]⟩] }

/-- A dialog in which the third item of the combo box is selected and nothing is stored. -/
def dialog : DlgPrefColors :=
  { m_pConfig := ⟨none, none⟩,
    comboBoxHotcueDefaultColor :=
      ⟨[("By hotcue number", -1), ("Palette 1", 0), ("Palette 2", 1), ("Palette 3", 2)], 2⟩ }

/-- An element that is not a chain, with children of its own. -/
def notAChain : QDomElement :=
  some ⟨"Effect", [QDomNode.element "Name" [QDomNode.text "abc"],
    QDomNode.element "MixMode" [QDomNode.text "DryWet"]]⟩

end Sample

/-! ## Lemmas on the loop and on `XmlParse` -/

namespace EffectChainPreset

variable {U S M D : Type}

theorem presetsOfChildren_cons (env : Env U S M D) (node : QDomNode) (rest : List QDomNode) :
    presetsOfChildren env (node :: rest) =
      if node.isElement then env.effectPreset.fromXml node.toElement :: presetsOfChildren env rest
      else presetsOfChildren env rest := by
  cases h : node.isElement <;> simp [presetsOfChildren, List.filter_cons, h]

theorem presetsOfChildren_append (env : Env U S M D) (l₁ l₂ : List QDomNode) :
    presetsOfChildren env (l₁ ++ l₂) = presetsOfChildren env l₁ ++ presetsOfChildren env l₂ := by
  simp [presetsOfChildren]

/-- Started at counter `st.i` with at least as many iterations allowed as children are left,
the loop ends with the counter at `effectList.count()` and has appended the presets of the
children from `st.i` on. -/
theorem effectLoop_eq (env : Env U S M D) (effectList : List QDomNode) :
    ∀ (remaining : Nat) (st : LoopState U), st.i ≤ effectList.length →
      effectList.length ≤ st.i + remaining →
      effectLoop env effectList remaining st =
        ⟨effectList.length,
          st.m_effectPresets ++ presetsOfChildren env (effectList.drop st.i)⟩ := by
  have stop : ∀ st : LoopState U, st.i = effectList.length →
      st = ⟨effectList.length,
        st.m_effectPresets ++ presetsOfChildren env (effectList.drop st.i)⟩ := by
    intro st hi
    cases st with
    | mk i acc =>
      simp only at hi
      subst hi
      simp [presetsOfChildren]
  intro remaining
  induction remaining with
  | zero =>
    intro st hle h
    have hi : st.i = effectList.length := by omega
    rw [effectLoop]
    exact stop st hi
  | succ n ih =>
    intro st hle h
    by_cases hlt : st.i < effectList.length
    · have hget : effectList.get? st.i = some effectList[st.i] := by
        simp [List.getElem?_eq_getElem hlt]
      have hdrop : effectList.drop st.i = effectList[st.i] :: effectList.drop (st.i + 1) :=
        List.drop_eq_getElem_cons hlt
      rw [effectLoop, hget]
      simp only
      have hbody : (loopBody env effectList[st.i] st).i = st.i + 1 := by
        unfold loopBody
        split <;> rfl
      rw [ih _ (by rw [hbody]; omega) (by rw [hbody]; omega), hbody, hdrop,
        presetsOfChildren_cons]
      unfold loopBody
      cases hel : effectList[st.i].isElement <;> simp
    · have hi : st.i = effectList.length := by omega
      have hget : effectList.get? st.i = none := by
        simp [hi]
      rw [effectLoop, hget]
      exact stop st hi

/-- The whole loop, as the constructor runs it, and with iterations to spare. -/
theorem effectLoop_run_extra (env : Env U S M D) (effectList : List QDomNode) (extra : Nat) :
    effectLoop env effectList (effectList.length + extra) ⟨0, []⟩ =
      ⟨effectList.length, presetsOfChildren env effectList⟩ := by
  have h := effectLoop_eq env effectList (effectList.length + extra) ⟨0, []⟩
    (by simp) (by simp)
  simpa using h

/-- The whole loop, as the constructor runs it. -/
theorem effectLoop_run (env : Env U S M D) (effectList : List QDomNode) :
    effectLoop env effectList effectList.length ⟨0, []⟩ =
      ⟨effectList.length, presetsOfChildren env effectList⟩ :=
  effectLoop_run_extra env effectList 0

/-- The constructor on an element tagged `Chain`, whatever its children: each member is read
from its own child. On a childless element every lookup fails, so the early return and the
field reads agree. -/
theorem fromXml_chain (env : Env U S M D) (children : List QDomNode) :
    fromXml env (some ⟨EffectXml.Chain, children⟩) =
      { m_id := XmlParse.selectNodeQString (some ⟨EffectXml.Chain, children⟩) EffectXml.ChainId,
        m_name := XmlParse.selectNodeQString (some ⟨EffectXml.Chain, children⟩) EffectXml.ChainName,
        m_description :=
          XmlParse.selectNodeQString (some ⟨EffectXml.Chain, children⟩) EffectXml.ChainDescription,
        m_mixMode := env.mixMode.mixModeFromString
          (XmlParse.selectNodeQString (some ⟨EffectXml.Chain, children⟩) EffectXml.ChainMixMode),
        m_dSuper := XmlParse.selectNodeDouble env.qt (some ⟨EffectXml.Chain, children⟩)
          EffectXml.ChainSuperParameter,
        m_effectPresets := presetsOfChildren env (QDomElement.childNodes
          (XmlParse.selectElement (some ⟨EffectXml.Chain, children⟩) EffectXml.EffectsRoot)) } := by
  cases children with
  | nil =>
    simp [fromXml, QDomElement.tagName, QDomElement.hasChildNodes, QDomElement.childNodes,
      empty, XmlParse.selectNodeQString, XmlParse.selectNode, XmlParse.selectNodeIn,
      XmlParse.selectNodeDouble, XmlParse.selectElement, XmlParse.selectElementIn,
      MixModeCodec.mixModeFromString, env.mixMode.empty_unknown, presetsOfChildren,
      initialMembers]
  | cons node rest =>
    simp [fromXml, QDomElement.tagName, QDomElement.hasChildNodes, QDomElement.childNodes,
      effectLoop_run, initialMembers]

/-- Appending the serialized units one by one gives the container their list, in order. -/
theorem foldl_appendChild (f : U → QDomNode) (l : List U) (e : Element) :
    l.foldl (fun acc u => acc.appendChild (f u)) e = ⟨e.tagName, e.childNodes ++ l.map f⟩ := by
  induction l generalizing e with
  | nil => simp
  | cons u rest ih =>
    rw [List.foldl_cons, ih]
    simp [Element.appendChild]

/-- Appending one preset per slot gives the list of the slots' presets, in order. -/
theorem foldl_append_singleton (f : S → U) (l : List S) (acc : List U) :
    l.foldl (fun acc s => acc ++ [f s]) acc = acc ++ l.map f := by
  induction l generalizing acc with
  | nil => simp
  | cons s rest ih => simp [ih]

/-- The element `toXml` builds, written out. -/
theorem toXml_eq (env : Env U S M D) (p : EffectChainPreset U M D) :
    toXml env p =
      ⟨EffectXml.Chain,
        [ QDomNode.element EffectXml.ChainId [QDomNode.text p.m_id],
          QDomNode.element EffectXml.ChainName [QDomNode.text p.m_name],
          QDomNode.element EffectXml.ChainDescription [QDomNode.text p.m_description],
          QDomNode.element EffectXml.ChainMixMode
            [QDomNode.text (env.mixMode.mixModeToString p.m_mixMode)],
          QDomNode.element EffectXml.ChainSuperParameter
            [QDomNode.text (env.qt.number p.m_dSuper)],
          QDomNode.element EffectXml.EffectsRoot
            (p.m_effectPresets.map (fun u => (env.effectPreset.toXml u).toNode)) ]⟩ := by
  unfold toXml
  rw [foldl_appendChild]
  simp [XmlParse.addElement, createElement, createTextNode, Element.appendChild,
    Element.toNode]

theorem selectNodeIn_removeNamed_ne (children : List QDomNode) (removed wanted : String)
    (h : wanted ≠ removed) :
    XmlParse.selectNodeIn (removeNamed children removed) wanted =
      XmlParse.selectNodeIn children wanted := by
  induction children with
  | nil => rfl
  | cons node rest ih =>
    by_cases hn : node.nodeName = removed
    · have hw : node.nodeName ≠ wanted := fun hw => h (hw ▸ hn)
      rw [removeNamed, if_pos hn, ih, XmlParse.selectNodeIn, if_neg hw]
    · rw [removeNamed, if_neg hn, XmlParse.selectNodeIn, XmlParse.selectNodeIn, ih]

theorem selectNodeIn_removeNamed_self (children : List QDomNode) (removed : String) :
    XmlParse.selectNodeIn (removeNamed children removed) removed = none := by
  induction children with
  | nil => rfl
  | cons node rest ih =>
    by_cases hn : node.nodeName = removed
    · rw [removeNamed, if_pos hn, ih]
    · rw [removeNamed, if_neg hn, XmlParse.selectNodeIn, if_neg hn, ih]

theorem selectElementIn_removeNamed_ne (children : List QDomNode) (removed wanted : String)
    (h : wanted ≠ removed) :
    XmlParse.selectElementIn (removeNamed children removed) wanted =
      XmlParse.selectElementIn children wanted := by
  induction children with
  | nil => rfl
  | cons node rest ih =>
    by_cases hn : node.nodeName = removed
    · have hw : node.nodeName ≠ wanted := fun hw => h (hw ▸ hn)
      rw [removeNamed, if_pos hn, ih, XmlParse.selectElementIn]
      simp [hw]
    · rw [removeNamed, if_neg hn, XmlParse.selectElementIn, XmlParse.selectElementIn, ih]

theorem selectElementIn_removeNamed_self (children : List QDomNode) (removed : String) :
    XmlParse.selectElementIn (removeNamed children removed) removed = none := by
  induction children with
  | nil => rfl
  | cons node rest ih =>
    by_cases hn : node.nodeName = removed
    · rw [removeNamed, if_pos hn, ih]
    · rw [removeNamed, if_neg hn, XmlParse.selectElementIn, ih]
      simp [hn]

/-- An element whose tag is not `Chain` is answered with the default-constructed preset. -/
theorem fromXml_of_tag_ne (env : Env U S M D) (chainElement : QDomElement)
    (h : QDomElement.tagName chainElement ≠ EffectXml.Chain) :
    fromXml env chainElement = empty env := by
  simp [fromXml, h, empty]

/-- An element tagged `Chain` is a non-null element with that tag. -/
theorem eq_chain_of_tagName (chainElement : QDomElement)
    (h : QDomElement.tagName chainElement = EffectXml.Chain) :
    chainElement = some ⟨EffectXml.Chain, QDomElement.childNodes chainElement⟩ := by
  cases chainElement with
  | none => exact absurd h (by decide)
  | some e =>
    cases e with
    | mk tagName childNodes =>
      simp only [QDomElement.tagName] at h
      simp [QDomElement.childNodes, h]

/-- Reading back the serialized units gives the units, when the unit-level constructor
undoes the unit-level serializer on each of them. -/
theorem presetsOfChildren_toXml (env : Env U S M D) (l : List U)
    (h : ∀ u ∈ l, env.effectPreset.fromXml (some (env.effectPreset.toXml u)) = u) :
    presetsOfChildren env (l.map (fun u => (env.effectPreset.toXml u).toNode)) = l := by
  induction l with
  | nil => rfl
  | cons u rest ih =>
    have hu := h u (by simp)
    have hrest := ih (fun v hv => h v (by simp [hv]))
    rw [List.map_cons, presetsOfChildren_cons, hrest]
    simp [Element.toNode, QDomNode.isElement, QDomNode.toElement, hu]

/-- The constructor applied to the output of `toXml`, member by member. -/
theorem fromXml_toXml_eq (env : Env U S M D) (p : EffectChainPreset U M D) :
    fromXml env (some (toXml env p)) =
      { m_id := p.m_id, m_name := p.m_name, m_description := p.m_description,
        m_mixMode := env.mixMode.mixModeFromString (env.mixMode.mixModeToString p.m_mixMode),
        m_dSuper := env.qt.toDouble (env.qt.number p.m_dSuper),
        m_effectPresets := presetsOfChildren env
          (p.m_effectPresets.map (fun u => (env.effectPreset.toXml u).toNode)) } := by
  rw [toXml_eq, fromXml_chain]
  simp [XmlParse.selectNodeQString, XmlParse.selectNodeDouble, XmlParse.selectNode,
    XmlParse.selectElement, XmlParse.selectNodeIn, XmlParse.selectElementIn,
    QDomElement.childNodes, QDomElement.text, QDomNode.nodeName, QDomNode.isElement,
    QDomNode.toElement, QDomNode.innerTextList, QDomNode.innerText,
    EffectXml.Chain, EffectXml.ChainId, EffectXml.ChainName, EffectXml.ChainDescription,
    EffectXml.ChainMixMode, EffectXml.ChainSuperParameter, EffectXml.EffectsRoot]

/-- The constructor on any element tagged `Chain`: each member is read from its own child. -/
theorem fromXml_of_tag_eq (env : Env U S M D) (chainElement : QDomElement)
    (h : QDomElement.tagName chainElement = EffectXml.Chain) :
    fromXml env chainElement =
      { m_id := XmlParse.selectNodeQString chainElement EffectXml.ChainId,
        m_name := XmlParse.selectNodeQString chainElement EffectXml.ChainName,
        m_description := XmlParse.selectNodeQString chainElement EffectXml.ChainDescription,
        m_mixMode := env.mixMode.mixModeFromString
          (XmlParse.selectNodeQString chainElement EffectXml.ChainMixMode),
        m_dSuper := XmlParse.selectNodeDouble env.qt chainElement EffectXml.ChainSuperParameter,
        m_effectPresets := presetsOfChildren env (QDomElement.childNodes
          (XmlParse.selectElement chainElement EffectXml.EffectsRoot)) } := by
  have hc := eq_chain_of_tagName chainElement h
  generalize QDomElement.childNodes chainElement = children at hc
  subst hc
  exact fromXml_chain env children

/-- The empty token is not known, so it reads as the default mode. -/
theorem mixModeFromString_empty (c : MixModeCodec M) :
    c.mixModeFromString "" = c.defaultMode := by
  simp [MixModeCodec.mixModeFromString, c.empty_unknown]

/-- A token outside the known set reads as the default mode. -/
theorem mixModeFromString_unknown (c : MixModeCodec M) (token : String)
    (h : c.known.lookup token = none) :
    c.mixModeFromString token = c.defaultMode := by
  simp [MixModeCodec.mixModeFromString, h]

theorem lookup_mem_map_snd (token : String) (mode : M) :
    ∀ known : List (String × M), known.lookup token = some mode →
      mode ∈ known.map Prod.snd := by
  intro known
  induction known with
  | nil => intro h; simp at h
  | cons entry rest ih =>
    intro h
    cases entry with
    | mk key value =>
      rw [List.lookup_cons] at h
      cases hk : (token == key) with
      | true =>
        rw [hk] at h
        simp only [Option.some.injEq] at h
        simp [h]
      | false =>
        rw [hk] at h
        simp [ih h]

/-- Whatever the string, the lookup returns a member of the enumeration. -/
theorem mixModeFromString_mem (c : MixModeCodec M) (token : String) :
    c.mixModeFromString token ∈ c.members := by
  unfold MixModeCodec.mixModeFromString MixModeCodec.members
  cases h : c.known.lookup token with
  | none => simp
  | some mode => simp [lookup_mem_map_snd token mode c.known h]

end EffectChainPreset

/-! ## `QString::number` on the sample values -/

namespace QtNumber

/-- The text of `0.5`. -/
theorem number_half : QtNumber.number Sample.half = "0.5" := by
  decide

/-- The text of `0.5 + 2^-30`: the digits after the sixth are dropped. -/
theorem number_halfPlus : QtNumber.number Sample.halfPlus = "0.5" := by
  decide

/-- The two sample values, as fractions. -/
theorem half_halfPlus_eq :
    Sample.half = 1 / 2 ∧ Sample.halfPlus = 1 / 2 + 1 / 2 ^ 30 := by
  constructor
  · rw [Sample.half, Rat.mk'_eq_divInt, Rat.divInt_eq_div]
    norm_num
  · rw [Sample.halfPlus, Rat.mk'_eq_divInt, Rat.divInt_eq_div]
    norm_num

end QtNumber

/-! ## The properties of `EffectChainPreset` -/

namespace EffectChainPreset

variable {U S M D : Type}

/-- C1, as amended: a preset serialized by `toXml` and read back by the from-document
constructor is the same preset, in every member and with the effect presets in the same
order, provided the unit-level constructor undoes the unit-level serializer on each of its
effect presets, the mix-mode codec returns its mix mode, and the text `QString::number`
prints for its super parameter converts back to that super parameter. -/
theorem fromXml_toXml (env : Env U S M D) (p : EffectChainPreset U M D)
    (hUnits : ∀ u ∈ p.m_effectPresets,
      env.effectPreset.fromXml (some (env.effectPreset.toXml u)) = u)
    (hMixMode :
      env.mixMode.mixModeFromString (env.mixMode.mixModeToString p.m_mixMode) = p.m_mixMode)
    (hSuper : env.qt.toDouble (env.qt.number p.m_dSuper) = p.m_dSuper) :
    fromXml env (some (toXml env p)) = p := by
  rw [fromXml_toXml_eq, hMixMode, hSuper, presetsOfChildren_toXml env _ hUnits]

/-- Witness of C1 as amended: the sample preset with super parameter `0.5`. -/
theorem fromXml_toXml_witness :
    (∀ u ∈ Sample.presetHalf.m_effectPresets,
      Sample.env.effectPreset.fromXml (some (Sample.env.effectPreset.toXml u)) = u) ∧
    Sample.env.mixMode.mixModeFromString
      (Sample.env.mixMode.mixModeToString Sample.presetHalf.m_mixMode) =
        Sample.presetHalf.m_mixMode ∧
    Sample.env.qt.toDouble (Sample.env.qt.number Sample.presetHalf.m_dSuper) =
      Sample.presetHalf.m_dSuper ∧
    fromXml Sample.env (some (toXml Sample.env Sample.presetHalf)) = Sample.presetHalf :=
  have hUnits : ∀ u ∈ Sample.presetHalf.m_effectPresets,
      Sample.env.effectPreset.fromXml (some (Sample.env.effectPreset.toXml u)) = u := by
    decide
  have hMixMode : Sample.env.mixMode.mixModeFromString
      (Sample.env.mixMode.mixModeToString Sample.presetHalf.m_mixMode) =
        Sample.presetHalf.m_mixMode := by
    decide
  have hSuper : Sample.env.qt.toDouble (Sample.env.qt.number Sample.presetHalf.m_dSuper) =
      Sample.presetHalf.m_dSuper := by
    decide
  ⟨hUnits, hMixMode, hSuper, fromXml_toXml Sample.env Sample.presetHalf hUnits hMixMode hSuper⟩

/-- C1, counterexample: the sample preset with super parameter `0.5 + 2^-30` has a
non-default value in every field, the unit-level model and the mix-mode codec of the sample
environment round-trip, and yet `toXml` followed by the from-document constructor returns
the preset with super parameter `0.5`: `toXml` writes the six-digit text `0.5` for both
`0.5 + 2^-30` and `0.5`. So whatever `toDouble` returns for that text, the constructor does
not give back both presets. -/
theorem fromXml_toXml_loses_super :
    fromXml Sample.env (some (toXml Sample.env Sample.presetHalfPlus)) = Sample.presetHalf ∧
      Sample.presetHalf ≠ Sample.presetHalfPlus ∧
      ¬ ∃ toDoubleOk : String → Option ℚ,
        fromXml (Sample.envWith toDoubleOk) (some (toXml (Sample.envWith toDoubleOk)
            Sample.presetHalf)) = Sample.presetHalf ∧
        fromXml (Sample.envWith toDoubleOk) (some (toXml (Sample.envWith toDoubleOk)
            Sample.presetHalfPlus)) = Sample.presetHalfPlus := by
  refine ⟨by decide, by decide, ?_⟩
  rintro ⟨toDoubleOk, h1, h2⟩
  rw [fromXml_toXml_eq] at h1 h2
  have e1 := congrArg EffectChainPreset.m_dSuper h1
  have e2 := congrArg EffectChainPreset.m_dSuper h2
  simp only [Sample.envWith, Sample.qtDouble, Sample.presetHalf, Sample.presetHalfPlus] at e1 e2
  rw [QtNumber.number_halfPlus, ← QtNumber.number_half, e1] at e2
  exact absurd e2 (by decide)

/-- C2: for a `Chain` element whose effects container is `container`, the effect presets
the from-document constructor builds are the container's direct children in document order,
with the non-element nodes dropped and the unit-level constructor applied to each element;
their number is the number of element children; and a second `Chain` element whose
container holds the same children with non-element nodes inserted between them gives the
same list. -/
theorem fromXml_effectPresets_order (env : Env U S M D) (chainElement : QDomElement)
    (container : Element)
    (hTag : QDomElement.tagName chainElement = EffectXml.Chain)
    (hEffects : XmlParse.selectElement chainElement EffectXml.EffectsRoot = some container) :
    (fromXml env chainElement).m_effectPresets =
        (container.childNodes.filter QDomNode.isElement).map
          (fun node => env.effectPreset.fromXml node.toElement) ∧
      (fromXml env chainElement).m_effectPresets.length =
        container.childNodes.countP QDomNode.isElement ∧
      ∀ (spaced : QDomElement) (spacedContainer : Element)
        (before inserted after : List QDomNode),
        QDomElement.tagName spaced = EffectXml.Chain →
        XmlParse.selectElement spaced EffectXml.EffectsRoot = some spacedContainer →
        container.childNodes = before ++ after →
        spacedContainer.childNodes = before ++ inserted ++ after →
        (∀ node ∈ inserted, node.isElement = false) →
        (fromXml env spaced).m_effectPresets = (fromXml env chainElement).m_effectPresets := by
  have key : ∀ (e : QDomElement) (c : Element), QDomElement.tagName e = EffectXml.Chain →
      XmlParse.selectElement e EffectXml.EffectsRoot = some c →
      (fromXml env e).m_effectPresets = presetsOfChildren env c.childNodes := by
    intro e c ht hc
    rw [eq_chain_of_tagName e ht, fromXml_chain, ← eq_chain_of_tagName e ht, hc]
    rfl
  refine ⟨key _ _ hTag hEffects, ?_, ?_⟩
  · rw [key _ _ hTag hEffects]
    simp [presetsOfChildren, List.countP_eq_length_filter]
  · intro spaced spacedContainer before inserted after hTag2 hEffects2 hc hs hins
    rw [key _ _ hTag hEffects, key _ _ hTag2 hEffects2, hc, hs]
    have hnone : presetsOfChildren env inserted = [] := by
      have : inserted.filter QDomNode.isElement = [] := by
        rw [List.filter_eq_nil_iff]
        intro node hnode
        simp [hins node hnode]
      simp [presetsOfChildren, this]
    simp [presetsOfChildren_append, hnone]

/-- Witness of C2: the sample chain with the units `A`, `B`, `C`, and the same chain with a
comment and a whitespace node between them. -/
theorem fromXml_effectPresets_order_witness :
    (fromXml Sample.env Sample.chainABC).m_effectPresets = ["A", "B", "C"] ∧
      (fromXml Sample.env Sample.chainABCSpaced).m_effectPresets =
        (fromXml Sample.env Sample.chainABC).m_effectPresets :=
  have h := fromXml_effectPresets_order Sample.env Sample.chainABC
    ⟨"Effects", [Sample.effectNode "A", Sample.effectNode "B", Sample.effectNode "C"]⟩
    (by decide) (by rfl)
  ⟨h.1.trans (by decide),
    h.2.2 Sample.chainABCSpaced
      ⟨"Effects", [Sample.effectNode "A", QDomNode.comment "first", QDomNode.text " ",
        Sample.effectNode "B", Sample.effectNode "C"]⟩
      [Sample.effectNode "A"] [QDomNode.comment "first", QDomNode.text " "]
      [Sample.effectNode "B", Sample.effectNode "C"]
      (by decide) (by rfl) (by rfl) (by rfl) (by decide)⟩

/-- C3: for an element whose tag name is not `Chain`, whatever its children, the
from-document constructor yields the default-constructed preset: empty id, name and
description, the default mix mode, super parameter `0.0`, no effect presets. -/
theorem fromXml_wrong_tag (env : Env U S M D) (chainElement : QDomElement)
    (hTag : QDomElement.tagName chainElement ≠ EffectXml.Chain) :
    fromXml env chainElement = empty env ∧
      fromXml env chainElement =
        { m_id := "", m_name := "", m_description := "",
          m_mixMode := env.mixMode.defaultMode, m_dSuper := env.qt.zero,
          m_effectPresets := [] } := by
  rw [fromXml_of_tag_ne env chainElement hTag]
  exact ⟨rfl, rfl⟩

/-- Witness of C3: an `Effect` element with a name and a mix mode of its own. -/
theorem fromXml_wrong_tag_witness :
    QDomElement.tagName Sample.notAChain ≠ EffectXml.Chain ∧
      fromXml Sample.env Sample.notAChain = empty Sample.env :=
  ⟨by decide, (fromXml_wrong_tag Sample.env Sample.notAChain (by decide)).1⟩

/-- C4: for an element tagged `Chain` that has no child nodes, the from-document
constructor yields the default-constructed preset: empty id, name and description, the
default mix mode, super parameter `0.0`, no effect presets. -/
theorem fromXml_childless (env : Env U S M D) (chainElement : QDomElement)
    (hTag : QDomElement.tagName chainElement = EffectXml.Chain)
    (hChildless : QDomElement.hasChildNodes chainElement = false) :
    fromXml env chainElement = empty env ∧
      fromXml env chainElement =
        { m_id := "", m_name := "", m_description := "",
          m_mixMode := env.mixMode.defaultMode, m_dSuper := env.qt.zero,
          m_effectPresets := [] } := by
  have h : fromXml env chainElement = empty env := by
    simp [fromXml, hTag, hChildless, empty]
  rw [h]
  exact ⟨rfl, rfl⟩

/-- Witness of C4: the childless `Chain` element. -/
theorem fromXml_childless_witness :
    QDomElement.tagName (some ⟨"Chain", []⟩) = EffectXml.Chain ∧
      QDomElement.hasChildNodes (some ⟨"Chain", []⟩) = false ∧
      fromXml Sample.env (some ⟨"Chain", []⟩) = empty Sample.env :=
  ⟨by decide, by decide,
    (fromXml_childless Sample.env (some ⟨"Chain", []⟩) (by decide) (by decide)).1⟩

/-- C5: a `Chain` element whose only child is `<Name>s</Name>` gives the preset with name
`s` and every other member at its default; and in general each member is read from its own
child alone: the document without the children of one name (`removeNamed`) gives the same
preset except that this one member has its default, for the id, the name, the description,
the mix mode, the super parameter and, for the effects container, the empty effect list. -/
theorem fromXml_partial_fields (env : Env U S M D) :
    (∀ s : String,
      fromXml env (some ⟨EffectXml.Chain,
          [QDomNode.element EffectXml.ChainName [QDomNode.text s]]⟩) =
        { m_id := "", m_name := s, m_description := "",
          m_mixMode := env.mixMode.defaultMode, m_dSuper := env.qt.zero,
          m_effectPresets := [] }) ∧
    (∀ children : List QDomNode,
      fromXml env (some ⟨EffectXml.Chain, removeNamed children EffectXml.ChainId⟩) =
          { fromXml env (some ⟨EffectXml.Chain, children⟩) with m_id := "" } ∧
        fromXml env (some ⟨EffectXml.Chain, removeNamed children EffectXml.ChainName⟩) =
          { fromXml env (some ⟨EffectXml.Chain, children⟩) with m_name := "" } ∧
        fromXml env (some ⟨EffectXml.Chain, removeNamed children EffectXml.ChainDescription⟩) =
          { fromXml env (some ⟨EffectXml.Chain, children⟩) with m_description := "" } ∧
        fromXml env (some ⟨EffectXml.Chain, removeNamed children EffectXml.ChainMixMode⟩) =
          { fromXml env (some ⟨EffectXml.Chain, children⟩) with
            m_mixMode := env.mixMode.defaultMode } ∧
        fromXml env
            (some ⟨EffectXml.Chain, removeNamed children EffectXml.ChainSuperParameter⟩) =
          { fromXml env (some ⟨EffectXml.Chain, children⟩) with m_dSuper := env.qt.zero } ∧
        fromXml env (some ⟨EffectXml.Chain, removeNamed children EffectXml.EffectsRoot⟩) =
          { fromXml env (some ⟨EffectXml.Chain, children⟩) with m_effectPresets := [] }) ∧
    (∀ chainElement : QDomElement,
      (XmlParse.selectNode chainElement EffectXml.ChainId = none →
          (fromXml env chainElement).m_id = "") ∧
        (XmlParse.selectNode chainElement EffectXml.ChainName = none →
          (fromXml env chainElement).m_name = "") ∧
        (XmlParse.selectNode chainElement EffectXml.ChainDescription = none →
          (fromXml env chainElement).m_description = "") ∧
        (XmlParse.selectNode chainElement EffectXml.ChainMixMode = none →
          (fromXml env chainElement).m_mixMode = env.mixMode.defaultMode) ∧
        (XmlParse.selectNode chainElement EffectXml.ChainSuperParameter = none →
          (fromXml env chainElement).m_dSuper = env.qt.zero) ∧
        (XmlParse.selectElement chainElement EffectXml.EffectsRoot = none →
          (fromXml env chainElement).m_effectPresets = [])) := by
  refine ⟨?_, ?_, ?_⟩
  · intro s
    rw [fromXml_chain]
    simp [XmlParse.selectNodeQString, XmlParse.selectNodeDouble, XmlParse.selectNode,
      XmlParse.selectElement, XmlParse.selectNodeIn, XmlParse.selectElementIn,
      QDomElement.childNodes, QDomElement.text, QDomNode.nodeName, QDomNode.isElement,
      QDomNode.toElement, QDomNode.innerTextList, QDomNode.innerText,
      EffectXml.ChainId, EffectXml.ChainName, EffectXml.ChainDescription,
      EffectXml.ChainMixMode, EffectXml.ChainSuperParameter, EffectXml.EffectsRoot,
      mixModeFromString_empty, presetsOfChildren]
  · intro children
    simp only [fromXml_chain, XmlParse.selectNodeQString, XmlParse.selectNodeDouble,
      XmlParse.selectNode, XmlParse.selectElement, QDomElement.childNodes]
    refine ⟨?_, ?_, ?_, ?_, ?_, ?_⟩
    · rw [selectNodeIn_removeNamed_self,
        selectNodeIn_removeNamed_ne _ _ EffectXml.ChainName (by decide),
        selectNodeIn_removeNamed_ne _ _ EffectXml.ChainDescription (by decide),
        selectNodeIn_removeNamed_ne _ _ EffectXml.ChainMixMode (by decide),
        selectNodeIn_removeNamed_ne _ _ EffectXml.ChainSuperParameter (by decide),
        selectElementIn_removeNamed_ne _ _ EffectXml.EffectsRoot (by decide)]
    · rw [selectNodeIn_removeNamed_self,
        selectNodeIn_removeNamed_ne _ _ EffectXml.ChainId (by decide),
        selectNodeIn_removeNamed_ne _ _ EffectXml.ChainDescription (by decide),
        selectNodeIn_removeNamed_ne _ _ EffectXml.ChainMixMode (by decide),
        selectNodeIn_removeNamed_ne _ _ EffectXml.ChainSuperParameter (by decide),
        selectElementIn_removeNamed_ne _ _ EffectXml.EffectsRoot (by decide)]
    · rw [selectNodeIn_removeNamed_self,
        selectNodeIn_removeNamed_ne _ _ EffectXml.ChainId (by decide),
        selectNodeIn_removeNamed_ne _ _ EffectXml.ChainName (by decide),
        selectNodeIn_removeNamed_ne _ _ EffectXml.ChainMixMode (by decide),
        selectNodeIn_removeNamed_ne _ _ EffectXml.ChainSuperParameter (by decide),
        selectElementIn_removeNamed_ne _ _ EffectXml.EffectsRoot (by decide)]
    · rw [selectNodeIn_removeNamed_self,
        selectNodeIn_removeNamed_ne _ _ EffectXml.ChainId (by decide),
        selectNodeIn_removeNamed_ne _ _ EffectXml.ChainName (by decide),
        selectNodeIn_removeNamed_ne _ _ EffectXml.ChainDescription (by decide),
        selectNodeIn_removeNamed_ne _ _ EffectXml.ChainSuperParameter (by decide),
        selectElementIn_removeNamed_ne _ _ EffectXml.EffectsRoot (by decide)]
      simp only [mixModeFromString_empty]
    · rw [selectNodeIn_removeNamed_self,
        selectNodeIn_removeNamed_ne _ _ EffectXml.ChainId (by decide),
        selectNodeIn_removeNamed_ne _ _ EffectXml.ChainName (by decide),
        selectNodeIn_removeNamed_ne _ _ EffectXml.ChainDescription (by decide),
        selectNodeIn_removeNamed_ne _ _ EffectXml.ChainMixMode (by decide),
        selectElementIn_removeNamed_ne _ _ EffectXml.EffectsRoot (by decide)]
    · rw [selectElementIn_removeNamed_self,
        selectNodeIn_removeNamed_ne _ _ EffectXml.ChainId (by decide),
        selectNodeIn_removeNamed_ne _ _ EffectXml.ChainName (by decide),
        selectNodeIn_removeNamed_ne _ _ EffectXml.ChainDescription (by decide),
        selectNodeIn_removeNamed_ne _ _ EffectXml.ChainMixMode (by decide),
        selectNodeIn_removeNamed_ne _ _ EffectXml.ChainSuperParameter (by decide)]
      rfl
  · intro chainElement
    by_cases hTag : QDomElement.tagName chainElement = EffectXml.Chain
    · rw [fromXml_of_tag_eq env chainElement hTag]
      refine ⟨?_, ?_, ?_, ?_, ?_, ?_⟩ <;> intro h
      · simp [XmlParse.selectNodeQString, h]
      · simp [XmlParse.selectNodeQString, h]
      · simp [XmlParse.selectNodeQString, h]
      · simp [XmlParse.selectNodeQString, h, mixModeFromString_empty]
      · simp [XmlParse.selectNodeDouble, h]
      · simp [h, QDomElement.childNodes, presetsOfChildren]
    · rw [fromXml_of_tag_ne env chainElement hTag]
      exact ⟨fun _ => rfl, fun _ => rfl, fun _ => rfl, fun _ => rfl, fun _ => rfl,
        fun _ => rfl⟩

/-- C6: the element `toXml` produces for the snapshot of a live chain carries the values of
the chain's accessors, field for field: its id, name and description, the string of its mix
mode, the numeric text of its super parameter, and an effects container with one serialized
unit per effect slot, in the order of the slots. -/
theorem toXml_fromChain (env : Env U S M D) (chain : EffectChainSlot S M D) :
    toXml env (fromChain env chain) =
      ⟨EffectXml.Chain,
        [ QDomNode.element EffectXml.ChainId [QDomNode.text chain.id],
          QDomNode.element EffectXml.ChainName [QDomNode.text chain.name],
          QDomNode.element EffectXml.ChainDescription [QDomNode.text chain.description],
          QDomNode.element EffectXml.ChainMixMode
            [QDomNode.text (env.mixMode.mixModeToString chain.mixMode)],
          QDomNode.element EffectXml.ChainSuperParameter
            [QDomNode.text (env.qt.number chain.getSuperParameter)],
          QDomNode.element EffectXml.EffectsRoot
            (chain.getEffectSlots.map (fun pEffectSlot =>
              (env.effectPreset.toXml (env.effectPreset.fromSlot pEffectSlot)).toNode)) ]⟩ := by
  rw [toXml_eq]
  simp [fromChain, foldl_append_singleton, initialMembers]

/-- C7: for every preset `toXml` returns one element tagged `Chain` whose children are, in
this order, `Id`, `Name`, `Description`, `MixMode` with the string of the mix mode,
`SuperParameter` with the numeric text of the super parameter, each holding one text node,
and one `Effects` container holding the serialized element of each effect preset in list
order; for the default-constructed preset the container is present and empty. -/
theorem toXml_shape (env : Env U S M D) (p : EffectChainPreset U M D) :
    toXml env p =
        ⟨EffectXml.Chain,
          [ QDomNode.element EffectXml.ChainId [QDomNode.text p.m_id],
            QDomNode.element EffectXml.ChainName [QDomNode.text p.m_name],
            QDomNode.element EffectXml.ChainDescription [QDomNode.text p.m_description],
            QDomNode.element EffectXml.ChainMixMode
              [QDomNode.text (env.mixMode.mixModeToString p.m_mixMode)],
            QDomNode.element EffectXml.ChainSuperParameter
              [QDomNode.text (env.qt.number p.m_dSuper)],
            QDomNode.element EffectXml.EffectsRoot
              (p.m_effectPresets.map (fun u => (env.effectPreset.toXml u).toNode)) ]⟩ ∧
      toXml env (empty env) =
        ⟨EffectXml.Chain,
          [ QDomNode.element EffectXml.ChainId [QDomNode.text ""],
            QDomNode.element EffectXml.ChainName [QDomNode.text ""],
            QDomNode.element EffectXml.ChainDescription [QDomNode.text ""],
            QDomNode.element EffectXml.ChainMixMode
              [QDomNode.text (env.mixMode.mixModeToString env.mixMode.defaultMode)],
            QDomNode.element EffectXml.ChainSuperParameter
              [QDomNode.text (env.qt.number env.qt.zero)],
            QDomNode.element EffectXml.EffectsRoot [] ]⟩ := by
  refine ⟨toXml_eq env p, ?_⟩
  rw [toXml_eq]
  rfl

/-- C8: the mix mode of the preset the from-document constructor returns is always a member
of the enumeration; it is the codec's default on an element whose tag is not `Chain`, on an
element without children, when the `MixMode` token is not a known token, and when the
`MixMode` child is missing. -/
theorem fromXml_mixMode_valid (env : Env U S M D) (chainElement : QDomElement) :
    (fromXml env chainElement).m_mixMode ∈ env.mixMode.members ∧
      (QDomElement.tagName chainElement ≠ EffectXml.Chain →
        (fromXml env chainElement).m_mixMode = env.mixMode.defaultMode) ∧
      (QDomElement.hasChildNodes chainElement = false →
        (fromXml env chainElement).m_mixMode = env.mixMode.defaultMode) ∧
      (env.mixMode.known.lookup
          (XmlParse.selectNodeQString chainElement EffectXml.ChainMixMode) = none →
        (fromXml env chainElement).m_mixMode = env.mixMode.defaultMode) ∧
      (XmlParse.selectNode chainElement EffectXml.ChainMixMode = none →
        (fromXml env chainElement).m_mixMode = env.mixMode.defaultMode) := by
  by_cases hTag : QDomElement.tagName chainElement = EffectXml.Chain
  · rw [fromXml_of_tag_eq env chainElement hTag]
    refine ⟨mixModeFromString_mem _ _, fun h => absurd hTag h, ?_, ?_, ?_⟩
    · intro h
      have hnil : QDomElement.childNodes chainElement = [] := by
        simpa [QDomElement.hasChildNodes] using h
      simp [XmlParse.selectNodeQString, XmlParse.selectNode, hnil, XmlParse.selectNodeIn,
        mixModeFromString_empty]
    · intro h
      exact mixModeFromString_unknown _ _ h
    · intro h
      simp [XmlParse.selectNodeQString, h, mixModeFromString_empty]
  · rw [fromXml_of_tag_ne env chainElement hTag]
    refine ⟨?_, fun _ => rfl, fun _ => rfl, fun _ => rfl, fun _ => rfl⟩
    simp [empty, initialMembers, MixModeCodec.members]

/-- C9: the from-document constructor returns a preset for every element, the null element
included (for which it is the default-constructed preset); its loop over the children of the
effects container ends by itself after exactly as many iterations as there are children,
whatever spare iterations it is allowed; and a `SuperParameter` child that is missing, or
whose text does not convert to a number, gives super parameter `0.0`. -/
theorem fromXml_total (env : Env U S M D) (chainElement : QDomElement) :
    (∃ p : EffectChainPreset U M D, fromXml env chainElement = p) ∧
      fromXml env none = empty env ∧
      (∀ (effectList : List QDomNode) (extra : Nat),
        (effectLoop env effectList effectList.length ⟨0, []⟩).i = effectList.length ∧
          effectLoop env effectList (effectList.length + extra) ⟨0, []⟩ =
            effectLoop env effectList effectList.length ⟨0, []⟩) ∧
      (XmlParse.selectNode chainElement EffectXml.ChainSuperParameter = none →
        (fromXml env chainElement).m_dSuper = env.qt.zero) ∧
      (∀ node : QDomNode,
        XmlParse.selectNode chainElement EffectXml.ChainSuperParameter = some node →
        env.qt.toDoubleOk (QDomElement.text node.toElement) = none →
        (fromXml env chainElement).m_dSuper = env.qt.zero) := by
  refine ⟨⟨_, rfl⟩, fromXml_of_tag_ne env none (by decide), ?_, ?_, ?_⟩
  · intro effectList extra
    rw [effectLoop_run_extra, effectLoop_run]
    exact ⟨rfl, rfl⟩
  · intro h
    by_cases hTag : QDomElement.tagName chainElement = EffectXml.Chain
    · rw [fromXml_of_tag_eq env chainElement hTag]
      simp [XmlParse.selectNodeDouble, h]
    · rw [fromXml_of_tag_ne env chainElement hTag]
      rfl
  · intro node h hfail
    by_cases hTag : QDomElement.tagName chainElement = EffectXml.Chain
    · rw [fromXml_of_tag_eq env chainElement hTag]
      simp [XmlParse.selectNodeDouble, h, QtDouble.toDouble, hfail]
    · rw [fromXml_of_tag_ne env chainElement hTag]
      rfl

end EffectChainPreset

/-! ## The hotcue default colour preference -/

namespace DlgPrefColors

/-- Adding items to a box that already holds one keeps the current index and lengthens the
item list by the number of items added. -/
theorem foldl_addItem (f : Nat → String) (l : List Nat) (box : QComboBox)
    (h : box.items ≠ []) :
    (l.foldl (fun box i => box.addItem (f i) (Int.ofNat i)) box).items.length =
        box.items.length + l.length ∧
      (l.foldl (fun box i => box.addItem (f i) (Int.ofNat i)) box).currentIndex =
        box.currentIndex := by
  induction l generalizing box with
  | nil => simp
  | cons i rest ih =>
    have hne : (box.addItem (f i) (Int.ofNat i)).items ≠ [] := by
      simp [QComboBox.addItem]
    have hcur : (box.addItem (f i) (Int.ofNat i)).currentIndex = box.currentIndex := by
      cases hitems : box.items with
      | nil => exact absurd hitems h
      | cons item items => simp [QComboBox.addItem, hitems]
    have hlen : (box.addItem (f i) (Int.ofNat i)).items.length = box.items.length + 1 := by
      simp [QComboBox.addItem]
    obtain ⟨h1, h2⟩ := ih (box.addItem (f i) (Int.ofNat i)) hne
    rw [List.foldl_cons, h1, h2, hcur, hlen, List.length_cons]
    exact ⟨by omega, rfl⟩

/-- The combo box once `slotHotcuePaletteChanged` has filled it, before it selects an item:
one item more than the palette has colours. -/
theorem filled_length (box : QComboBox) (size : Nat) :
    (addPaletteItems ((box.clear).addItem "By hotcue number" (-1)) size).items.length =
      size + 1 := by
  have h := (foldl_addItem (fun i => "Palette " ++ toString (i + 1)) (List.range size)
    ((box.clear).addItem "By hotcue number" (-1)) (by simp [QComboBox.addItem])).1
  unfold addPaletteItems
  rw [h]
  simp [QComboBox.addItem, QComboBox.clear]
  omega

/-- Selecting an index within the filled box makes it the current index. -/
theorem setCurrentIndex_filled (box : QComboBox) (size : Nat) (index : Int)
    (h0 : 0 ≤ index) (hn : index ≤ (size : Int)) :
    ((addPaletteItems ((box.clear).addItem "By hotcue number" (-1)) size).setCurrentIndex
      index).currentIndex = index ∧
    ((addPaletteItems ((box.clear).addItem "By hotcue number" (-1)) size).setCurrentIndex
      index).items.length = size + 1 := by
  have hlen := filled_length box size
  refine ⟨?_, by simpa [QComboBox.setCurrentIndex] using hlen⟩
  have hlt : index < (addPaletteItems ((box.clear).addItem "By hotcue number" (-1))
      size).count := by
    unfold QComboBox.count
    rw [hlen]
    push_cast
    omega
  simp [QComboBox.setCurrentIndex, h0, hlt]

/-- The index `slotHotcuePaletteChanged` selects for stored settings, and the size of the
box it leaves. -/
theorem slotHotcuePaletteChanged_box (t : PredefinedColorPalettes) (paletteName : String)
    (dlg : DlgPrefColors) :
    (slotHotcuePaletteChanged t paletteName dlg).comboBoxHotcueDefaultColor.items.length =
        (hotcuePalette t paletteName).size + 1 ∧
      (slotHotcuePaletteChanged t paletteName dlg).comboBoxHotcueDefaultColor.currentIndex =
        (if getValue dlg.m_pConfig.auto_hotcue_colors false = true then 0
         else if getValue dlg.m_pConfig.HotcueDefaultColorIndex kHotcueDefaultColorIndex < 0 ∨
              getValue dlg.m_pConfig.HotcueDefaultColorIndex kHotcueDefaultColorIndex ≥
                ((hotcuePalette t paletteName).size : Int)
           then ((hotcuePalette t paletteName).size : Int) - 1 + 1
           else getValue dlg.m_pConfig.HotcueDefaultColorIndex kHotcueDefaultColorIndex + 1) := by
  unfold slotHotcuePaletteChanged
  simp only
  by_cases hauto : getValue dlg.m_pConfig.auto_hotcue_colors false = true
  · rw [if_pos hauto, if_pos hauto]
    have h := setCurrentIndex_filled dlg.comboBoxHotcueDefaultColor
      (hotcuePalette t paletteName).size 0 (le_refl 0) (by omega)
    exact ⟨h.2, h.1⟩
  · rw [if_neg hauto, if_neg hauto]
    by_cases hout :
        getValue dlg.m_pConfig.HotcueDefaultColorIndex kHotcueDefaultColorIndex < 0 ∨
          getValue dlg.m_pConfig.HotcueDefaultColorIndex kHotcueDefaultColorIndex ≥
            ((hotcuePalette t paletteName).size : Int)
    · rw [if_pos hout, if_pos hout]
      have h := setCurrentIndex_filled dlg.comboBoxHotcueDefaultColor
        (hotcuePalette t paletteName).size
        (((hotcuePalette t paletteName).size : Int) - 1 + 1) (by omega) (by omega)
      exact ⟨h.2, h.1⟩
    · rw [if_neg hout, if_neg hout]
      have h := setCurrentIndex_filled dlg.comboBoxHotcueDefaultColor
        (hotcuePalette t paletteName).size
        (getValue dlg.m_pConfig.HotcueDefaultColorIndex kHotcueDefaultColorIndex + 1)
        (by omega) (by omega)
      exact ⟨h.2, h.1⟩

/-- C10: with `n` the size of the palette `slotHotcuePaletteChanged` fills the combo box
from and `i` the selected index, `0 ≤ i ≤ n`: `slotApply` stores
`auto_hotcue_colors = true` and `HotcueDefaultColorIndex = -1` when `i = 0`, and `false`
and `i - 1` when `i > 0`; `slotHotcuePaletteChanged` run after it for the same palette
selects index `i` again; and for any stored settings whatever it leaves a box of `n + 1`
items with the current index between `0` and `n`. -/
theorem slotApply_then_slotHotcuePaletteChanged (t : PredefinedColorPalettes)
    (paletteName : String) (dlg : DlgPrefColors)
    (h0 : 0 ≤ dlg.comboBoxHotcueDefaultColor.currentIndex)
    (hn : dlg.comboBoxHotcueDefaultColor.currentIndex ≤
      ((hotcuePalette t paletteName).size : Int)) :
    (dlg.comboBoxHotcueDefaultColor.currentIndex = 0 →
        (slotApply dlg).m_pConfig = ⟨some true, some (-1)⟩) ∧
      (0 < dlg.comboBoxHotcueDefaultColor.currentIndex →
        (slotApply dlg).m_pConfig =
          ⟨some false, some (dlg.comboBoxHotcueDefaultColor.currentIndex - 1)⟩) ∧
      (slotHotcuePaletteChanged t paletteName
          (slotApply dlg)).comboBoxHotcueDefaultColor.currentIndex =
        dlg.comboBoxHotcueDefaultColor.currentIndex ∧
      ∀ stored : DlgPrefColors,
        (slotHotcuePaletteChanged t paletteName stored).comboBoxHotcueDefaultColor.items.length =
            (hotcuePalette t paletteName).size + 1 ∧
          0 ≤ (slotHotcuePaletteChanged t paletteName
            stored).comboBoxHotcueDefaultColor.currentIndex ∧
          (slotHotcuePaletteChanged t paletteName
            stored).comboBoxHotcueDefaultColor.currentIndex ≤
              ((hotcuePalette t paletteName).size : Int) := by
  refine ⟨?_, ?_, ?_, ?_⟩
  · intro hi
    simp [slotApply, hi]
  · intro hi
    simp [slotApply, hi]
  · rw [(slotHotcuePaletteChanged_box t paletteName (slotApply dlg)).2]
    by_cases hi : 0 < dlg.comboBoxHotcueDefaultColor.currentIndex
    · have hcfg : (slotApply dlg).m_pConfig =
          ⟨some false, some (dlg.comboBoxHotcueDefaultColor.currentIndex - 1)⟩ := by
        simp [slotApply, hi]
      rw [hcfg]
      simp only [getValue]
      rw [if_neg (by decide), if_neg (by omega)]
      omega
    · have hcfg : (slotApply dlg).m_pConfig = ⟨some true, some (-1)⟩ := by
        simp [slotApply, hi]
      rw [hcfg]
      simp only [getValue]
      rw [if_pos trivial]
      omega
  · intro stored
    obtain ⟨hlen, hcur⟩ := slotHotcuePaletteChanged_box t paletteName stored
    refine ⟨hlen, ?_, ?_⟩ <;> rw [hcur] <;> split_ifs <;> omega

/-- Witness of C10: the sample dialog, in which index 2 of the four items of the
three-colour palette is selected. -/
theorem slotApply_then_slotHotcuePaletteChanged_witness :
    (slotApply Sample.dialog).m_pConfig = ⟨some false, some 1⟩ ∧
      (slotHotcuePaletteChanged Sample.palettes "Three colours"
        (slotApply Sample.dialog)).comboBoxHotcueDefaultColor.currentIndex = 2 :=
  have h := slotApply_then_slotHotcuePaletteChanged Sample.palettes "Three colours"
    Sample.dialog (by decide) (by decide)
  ⟨h.2.1 (by decide), h.2.2.1⟩

end DlgPrefColors

end Mixxx
